import Mathlib

/-!
Shallow embedding of the Flowforge comms core (forge/comms/devices.js,
forge/comms/aclManager.js, and the Device db controller) together with
theorems about its behaviour.

JavaScript values that flow through these modules are modelled with a
small JSON value type; machine integers are modelled with Int (none of
the code relies on overflow); asynchronous handlers that can raise an
exception return Except; db lookups, JSON.parse and the hashid codec are
host collaborators and appear as explicit function parameters.
-/

namespace Flowforge

/-- A JSON value, as produced by the host runtime JSON.parse. -/
inductive Json where
  | null : Json
  | bool (b : Bool) : Json
  | num (n : Int) : Json
  | str (s : String) : Json
  | arr (elems : List Json) : Json
  | obj (fields : List (String × Json)) : Json

/-- Property access `v[key]` on a JSON value: an object field when present,
otherwise the JavaScript undefined, modelled as none. -/
def Json.lookup : Json → String → Option Json
  | .obj fields, key => fields.lookup key
  | _, _ => none

/-- JavaScript truthiness of a JSON value. -/
def Json.truthy : Json → Bool
  | .null => false
  | .bool b => b
  | .num n => n != 0
  | .str s => s != ""
  | .arr _ => true
  | .obj _ => true

/-- Truthiness of a possibly-undefined value (`undefined` is falsy). -/
def jsTruthy : Option Json → Bool
  | none => false
  | some v => v.truthy

/-- `Object.hasOwn(v, key)` for a parsed JSON value. -/
def Json.hasOwn (v : Json) (key : String) : Bool :=
  match v with
  | .obj fields => (fields.lookup key).isSome
  | _ => false

mutual
/-- JavaScript string coercion of a JSON value, as used when a value is
used as an object property key. -/
def Json.toKeyString : Json → String
  | .null => "null"
  | .bool b => if b then "true" else "false"
  | .num n => toString n
  | .str s => s
  | .arr xs => String.intercalate "," (Json.keyStrings xs)
  | .obj _ => "[object Object]"

/-- Array elements joined for string coercion; null elements coerce to the
empty string inside an array. -/
def Json.keyStrings : List Json → List String
  | [] => []
  | x :: xs =>
    (match x with
     | .null => ""
     | y => Json.toKeyString y) :: Json.keyStrings xs
end

/-! ### forge/comms/devices.js : command dispatcher state -/

/-- `DEFAULT_TIMEOUT = 5000` (devices.js line 9). -/
def DEFAULT_TIMEOUT : Int := 5000

/-- One in-flight request/reply record (the `ResponseMonitor` objects built
by `DeviceCommsHandler.newResponseMonitor`).  The resolve/reject closures
are represented by the state transitions `settleResolve`/`settleReject`
below; `timerActive` records whether the setTimeout timer is still
pending (true until clearTimeout runs or the timer fires), and `inMap`
records membership in `this.inFlightCommands`. -/
structure ResponseMonitor where
  command : String
  deviceId : String
  teamId : String
  correlationData : String
  resolved : Bool
  rejected : Bool
  timerActive : Bool
  timerDuration : Int
  createdAt : Int
  expiresAt : Int
  inMap : Bool
deriving DecidableEq

/-- The terminal outcome of the promise returned by
`sendCommandAwaitReply`. -/
inductive Outcome where
  | resolvedWith (payload : Json)
  | rejectedWith (err : String)

/-- State of the DeviceCommsHandler command machinery: every monitor ever
created (keyed by its correlation token) plus the settled promise
outcomes in the order they happened. -/
structure HandlerState where
  monitors : List (String × ResponseMonitor)
  outcomes : List (String × Outcome)

/-- First-match association lookup (JavaScript object property read). -/
def lookupKey {α : Type} : List (String × α) → String → Option α
  | [], _ => none
  | (k, v) :: rest, c => if k = c then some v else lookupKey rest c

/-- Update every entry stored under a key (under the Nodup key invariant
there is at most one). -/
def updateKey {α : Type} (l : List (String × α)) (c : String) (f : α → α) :
    List (String × α) :=
  l.map (fun p => if p.1 = c then (p.1, f p.2) else p)

/-- Lookup in `this.inFlightCommands`: a monitor is found only while it is
still in the mapping. -/
def HandlerState.inFlightLookup (st : HandlerState) (c : String) :
    Option ResponseMonitor :=
  match lookupKey st.monitors c with
  | some m => if m.inMap then some m else none
  | none => none

/-- Number of settled outcomes recorded for a correlation token. -/
def countKey (l : List (String × Outcome)) (c : String) : Nat :=
  l.countP (fun p => p.1 = c)

/-- The `inFlightCommand.resolve` closure (devices.js lines 213-218): set
the resolved flag, clear the timer, resolve the promise with the payload,
delete the monitor from the in-flight mapping. -/
def settleResolve (st : HandlerState) (c : String) (payload : Json) :
    HandlerState :=
  { monitors := updateKey st.monitors c
      (fun m => { m with resolved := true, timerActive := false, inMap := false }),
    outcomes := st.outcomes ++ [(c, .resolvedWith payload)] }

/-- The `inFlightCommand.reject` closure (devices.js lines 219-224): set
the rejected flag, clear the timer, reject the promise, delete the
monitor from the in-flight mapping. -/
def settleReject (st : HandlerState) (c : String) (err : String) :
    HandlerState :=
  { monitors := updateKey st.monitors c
      (fun m => { m with rejected := true, timerActive := false, inMap := false }),
    outcomes := st.outcomes ++ [(c, .rejectedWith err)] }

/-- `delete this.inFlightCommands[key]`. -/
def deleteKey (st : HandlerState) (c : String) : HandlerState :=
  { st with monitors := updateKey st.monitors c (fun m => { m with inMap := false }) }

/-- The options argument of `sendCommandAwaitReply`: none models a null or
undefined options object, `some none` an object with no numeric timeout,
`some (some t)` an object whose timeout is the number t. -/
def SendOptions : Type := Option (Option Int)

/-- Sanitising of `options.timeout` (devices.js line 208):
a positive numeric timeout is kept, anything else becomes
DEFAULT_TIMEOUT. -/
def sanitizeTimeout : SendOptions → Int
  | some (some t) => if t > 0 then t else DEFAULT_TIMEOUT
  | _ => DEFAULT_TIMEOUT

/-- `DeviceCommsHandler.newResponseMonitor` (devices.js lines 276-292),
called by `sendCommandAwaitReply` after sanitising the options, so the
timeout is always a positive number there.  `expiresAt` follows the
source expression `now + options?.timeout || DEFAULT_TIMEOUT`: the
addition binds tighter, and a missing timeout makes the sum NaN, which
is falsy. -/
def newResponseMonitor (command deviceId teamId : String)
    (opts : SendOptions) (now : Int) (fresh : String) : ResponseMonitor :=
  { command := command
    deviceId := deviceId
    teamId := teamId
    correlationData := fresh
    resolved := false
    rejected := false
    timerActive := false
    timerDuration := 0
    createdAt := now
    expiresAt :=
      match opts with
      | some (some t) => if now + t = 0 then DEFAULT_TIMEOUT else now + t
      | _ => DEFAULT_TIMEOUT
    inMap := false }

/-- The command message published to the device
(`DeviceCommsHandler.newCommandMessage`, devices.js lines 253-266). -/
structure CommandMessage where
  command : String
  deviceId : String
  teamId : String
  correlationData : String
  createdAt : Int
  expiresAt : Int
  responseTopic : String
  payload : Json

/-- `DeviceCommsHandler.newCommandMessage`. -/
def newCommandMessage (cmr : ResponseMonitor) (payload : Json) : CommandMessage :=
  { command := cmr.command
    createdAt := cmr.createdAt
    expiresAt := cmr.expiresAt
    deviceId := cmr.deviceId
    teamId := cmr.teamId
    correlationData := cmr.correlationData
    responseTopic := "ff/v1/" ++ cmr.teamId ++ "/d/" ++ cmr.deviceId ++ "/response"
    payload := payload }

/-- `DeviceCommsHandler.sendCommandAwaitReply` (devices.js lines 205-245):
sanitise the timeout, build a monitor with a fresh correlation token
(uuidv4, passed in as `fresh`), install resolve/reject closures, start
the timer, register the monitor in the in-flight mapping and publish the
command message.  Returns the new state and the published message. -/
def sendCommandAwaitReply (st : HandlerState) (teamId deviceId command : String)
    (payload : Json) (opts : SendOptions) (now : Int) (fresh : String) :
    HandlerState × CommandMessage :=
  let timeout := sanitizeTimeout opts
  let base := newResponseMonitor command deviceId teamId (some (some timeout)) now fresh
  let monitor := { base with timerActive := true, timerDuration := timeout, inMap := true }
  ({ st with monitors := st.monitors ++ [(fresh, monitor)] },
   newCommandMessage monitor payload)

/-- The timer callback installed by `sendCommandAwaitReply` (devices.js
lines 228-232): if the monitor is already resolved or rejected the
callback is a no-op, otherwise it rejects with a timeout error.  The
timer can only fire while it is still pending, which is a side condition
of the `Step.timer` transition below. -/
def timerFire (st : HandlerState) (c : String) : HandlerState :=
  match lookupKey st.monitors c with
  | none => st
  | some m =>
    if m.resolved then st
    else if m.rejected then st
    else settleReject st c "Command timed out"

/-- A device-response transport event as emitted by the comms client
(`response/device`): `id` from the topic, `message` the raw payload
string.  The transport never sets a top level correlationData property,
but `handleCommandResponse` reads one, so the field is kept (reading the
missing property gives undefined, i.e. none). -/
structure ResponseMsg where
  id : Option String
  message : Option String
  correlationData : Option String := none
deriving DecidableEq

/-- Strict equality `stored === message.command` between the stored
command string and a JSON field value. -/
def jsStrictEqStr (s : String) (v : Option Json) : Bool :=
  match v with
  | some (.str t) => s == t
  | _ => false

/-- The collaborators used by the handlers: the host JSON parser and the
device-by-id database lookup. -/
structure CommsConfig where
  parseJson : String → Except String Json
  deviceById : String → Option Unit

/-- `DeviceCommsHandler.handleCommandResponse` (devices.js lines
111-139).  Returns the new state, or the exception raised by an
uncaught `JSON.parse` failure (the call on line 123 is not inside a
try/catch).  The required-field check on line 124 tests truthiness.
On a match the monitor resolve closure runs, then line 136 deletes
`this.inFlightCommands[response.correlationData]`, whose key is the
string coercion of the usually-undefined top level property. -/
def handleCommandResponse (cfg : CommsConfig) (st : HandlerState)
    (r : ResponseMsg) : Except String HandlerState :=
  match r.id, r.message with
  | some deviceId, some messageStr =>
    if deviceId != "" then
      match cfg.parseJson messageStr with
      | .error e => .error e
      | .ok message =>
        if jsTruthy (message.lookup "command")
            && jsTruthy (message.lookup "correlationData")
            && jsTruthy (message.lookup "payload") then
          match cfg.deviceById deviceId with
          | none => .ok st
          | some _ =>
            match st.inFlightLookup
                (Json.toKeyString ((message.lookup "correlationData").getD .null)) with
            | some m =>
              if jsStrictEqStr m.command (message.lookup "command") then
                .ok (deleteKey
                  (settleResolve st
                    (Json.toKeyString ((message.lookup "correlationData").getD .null))
                    ((message.lookup "payload").getD .null))
                  (r.correlationData.getD "undefined"))
              else .ok st
            | none => .ok st
        else .ok st
    else .ok st
  | _, _ => .ok st

/-- One interleaving step of the single-threaded event loop acting on the
command machinery: a `sendCommandAwaitReply` call (with a fresh uuid
correlation token), a `response/device` event (whether the handler
returns normally or raises), or the firing of a still-pending monitor
timer. -/
inductive Step (cfg : CommsConfig) : HandlerState → HandlerState → Prop where
  | send {st : HandlerState} (teamId deviceId command : String) (payload : Json)
      (opts : SendOptions) (now : Int) (fresh : String)
      (hfresh : lookupKey st.monitors fresh = none) :
      Step cfg st (sendCommandAwaitReply st teamId deviceId command payload opts now fresh).1
  | response {st st' : HandlerState} (r : ResponseMsg)
      (h : handleCommandResponse cfg st r = .ok st') :
      Step cfg st st'
  | responseRaised {st : HandlerState} (r : ResponseMsg) (e : String)
      (h : handleCommandResponse cfg st r = .error e) :
      Step cfg st st
  | timer {st : HandlerState} (c : String) (m : ResponseMonitor)
      (hm : lookupKey st.monitors c = some m) (hactive : m.timerActive = true) :
      Step cfg st (timerFire st c)

/-- States of the command machinery reachable from a fresh handler
(empty in-flight mapping, no settled promise). -/
inductive Reachable (cfg : CommsConfig) : HandlerState → Prop where
  | init : Reachable cfg ⟨[], []⟩
  | step {st st' : HandlerState} : Reachable cfg st → Step cfg st st' → Reachable cfg st'

/-! ### Device db controller (updateState / sendDeviceUpdateCommand) -/

/-- A value stored in a device row column: either a JSON-modelled value or
a SQL literal such as CURRENT_TIMESTAMP. -/
inductive ColVal where
  | json (v : Json)
  | sqlLiteral (s : String)

/-- The device model instance as seen by these handlers: the columns
touched by `updateState`, the association fields read by
`sendDeviceUpdateCommand` and `handleStatus`, and the hashids. -/
structure Device where
  hashid : String
  teamHashid : String
  projectId : Option String
  targetSnapshotHashid : Option String
  settingsHash : Option String
  mode : String
  state : ColVal
  agentVersion : ColVal
  activeSnapshotId : ColVal
  lastSeenAt : ColVal
  currentSnapshot : Option Json

/-- Collaborators of the status reconciler: the JSON parser, the
device-by-id lookup, the snapshot hashid decoder (returns a list of
decoded ids), the snapshot existence lookup, the comms availability flag
and the licence state. -/
structure StatusConfig where
  parseJson : String → Except String Json
  deviceById : String → Option Device
  decodeHashid : Json → List Int
  snapshotById : Json → Option Unit
  commsActive : Bool
  licenseActive : Bool

/-- `Device.updateState` (db controller): copy truthy `state` and
`agentVersion` fields, always stamp `lastSeenAt` with the
CURRENT_TIMESTAMP literal, then reconcile the active snapshot: a falsy
snapshot reference clears it (when the current snapshot is not null), a
truthy reference is decoded and only applied when the decode is
non-empty and the snapshot still exists. -/
def updateState (cfg : StatusConfig) (device : Device) (state : Json) : Device :=
  let d1 :=
    if jsTruthy (state.lookup "state") then
      { device with state := .json ((state.lookup "state").getD .null) }
    else device
  let d2 :=
    if jsTruthy (state.lookup "agentVersion") then
      { d1 with agentVersion := .json ((state.lookup "agentVersion").getD .null) }
    else d1
  let d3 := { d2 with lastSeenAt := .sqlLiteral "CURRENT_TIMESTAMP" }
  if ¬ jsTruthy (state.lookup "snapshot") then
    if (match d3.currentSnapshot with | some .null => false | _ => true) then
      { d3 with activeSnapshotId := .json .null }
    else d3
  else
    let snapRef := (state.lookup "snapshot").getD .null
    let snapshotId := cfg.decodeHashid snapRef
    if snapshotId.length > 0 then
      match cfg.snapshotById snapRef with
      | some _ => { d3 with activeSnapshotId := .json (.arr (snapshotId.map .num)) }
      | none => d3
    else d3

/-- `device.Project?.id || null` and friends: an empty string is falsy
and collapses to null. -/
def jsOrNull : Option String → Option String
  | some s => if s = "" then none else some s
  | none => none

/-- The fire-and-forget command published by `sendDeviceUpdateCommand`. -/
structure UpdateCommand where
  teamId : String
  deviceId : String
  command : String
  project : Option String
  snapshot : Option String
  settings : Option String
  mode : String
  licensed : Bool

/-- `Device.sendDeviceUpdateCommand` (db controller): when comms is
available, publish an update command carrying the authoritative project,
snapshot, settings, mode and licensed values to the device command
topic. -/
def sendDeviceUpdateCommand (cfg : StatusConfig) (device : Device) :
    List UpdateCommand :=
  if cfg.commsActive then
    [{ teamId := device.teamHashid
       deviceId := device.hashid
       command := "update"
       project := jsOrNull device.projectId
       snapshot := jsOrNull device.targetSnapshotHashid
       settings := jsOrNull device.settingsHash
       mode := device.mode
       licensed := cfg.licenseActive }]
  else []

/-- A `status/device` transport event. -/
structure StatusMsg where
  id : Option String
  status : Option String

/-- Strict inequality `payloadField !== (assoc || null)` between a JSON
field value and a nullable string from the device record. -/
def jsStrictNeOptStr (v : Json) (o : Option String) : Bool :=
  match o with
  | none => !(match v with | .null => true | _ => false)
  | some s => !(match v with | .str t => t == s | _ => false)

/-- `DeviceCommsHandler.handleStatus` (devices.js lines 64-102): validate
the event, look the device up, parse the status (a parse failure is
caught and ignored), apply `updateState`, then decide whether to push an
update command: state === unknown, or a declared project, snapshot or
settings field that differs from the authoritative value.  Returns the
device record after `updateState` (when it ran) and the dispatched
commands. -/
def handleStatus (cfg : StatusConfig) (ev : StatusMsg) :
    Option Device × List UpdateCommand :=
  match ev.id, ev.status with
  | some deviceId, some statusStr =>
    if deviceId != "" && statusStr != "" then
      match cfg.deviceById deviceId with
      | none => (none, [])
      | some device =>
        match cfg.parseJson statusStr with
        | .error _ => (some device, [])
        | .ok payload =>
          let device' := updateState cfg device payload
          let fromUnknown := jsStrictEqStr "unknown" (payload.lookup "state")
          let projectDrift := payload.hasOwn "project"
              && jsStrictNeOptStr ((payload.lookup "project").getD .null)
                  (jsOrNull device'.projectId)
          let snapshotDrift := payload.hasOwn "snapshot"
              && jsStrictNeOptStr ((payload.lookup "snapshot").getD .null)
                  (jsOrNull device'.targetSnapshotHashid)
          let settingsDrift := payload.hasOwn "settings"
              && jsStrictNeOptStr ((payload.lookup "settings").getD .null)
                  (jsOrNull device'.settingsHash)
          if fromUnknown || projectDrift || snapshotDrift || settingsDrift then
            (some device', sendDeviceUpdateCommand cfg device')
          else (some device', [])
    else (none, [])
  | _, _ => (none, [])

/-! ### Log fan-out relay (streamLogs / forwardLog, devices.js 300-347) -/

/-- A `logs/device` transport event. -/
structure LogMsg where
  id : String
  logs : String
deriving DecidableEq

/-- Per-device log session: the bounded replay cache and the set of
viewer sockets (socket identities modelled as naturals). -/
structure LogSession where
  cache : List LogMsg
  sockets : List Nat
deriving DecidableEq

/-- The `deviceLogClients` map. -/
structure LogState where
  sessions : List (String × LogSession)
deriving DecidableEq

/-- Observable side effects of the relay: a line sent to one viewer
socket, or a command published to a device. -/
inductive LogAction where
  | send (socket : Nat) (line : String)
  | deviceCommand (teamId deviceId command : String)
deriving DecidableEq

/-- Collaborator lookup for orphaned log traffic: device id to the team
hashid of the owning team, when the device exists. -/
structure LogConfig where
  deviceTeamById : String → Option String

/-- Replace the session stored under a device id. -/
def setSession (st : LogState) (deviceId : String) (s : LogSession) : LogState :=
  { sessions := updateKey st.sessions deviceId (fun _ => s) }

/-- Remove the session stored under a device id
(`delete this.deviceLogClients[deviceId]`). -/
def removeSession (st : LogState) (deviceId : String) : LogState :=
  { sessions := st.sessions.filter (fun p => p.1 ≠ deviceId) }

/-- `DeviceCommsHandler.streamLogs` (devices.js lines 300-312): create the
session on first viewer (empty cache, startLog command), add the socket
to the viewer set, replay the current cache to that socket. -/
def streamLogs (st : LogState) (teamId deviceId : String) (socket : Nat) :
    LogState × List LogAction :=
  match lookupKey st.sessions deviceId with
  | none =>
    ({ sessions := st.sessions ++ [(deviceId, { cache := [], sockets := [socket] })] },
     [.deviceCommand teamId deviceId "startLog"])
  | some s =>
    (setSession st deviceId
      { s with sockets := if socket ∈ s.sockets then s.sockets else s.sockets ++ [socket] },
     s.cache.map (fun l => .send socket l.logs))

/-- The socket close handler registered by `streamLogs` (devices.js lines
313-322): drop the socket from the viewer set and, when the set becomes
empty, destroy the session and tell the device to stop sending logs. -/
def socketClose (st : LogState) (teamId deviceId : String) (socket : Nat) :
    LogState × List LogAction :=
  match lookupKey st.sessions deviceId with
  | none => (st, [])
  | some s =>
    if (s.sockets.filter (fun sk => sk ≠ socket)).length = 0 then
      (removeSession st deviceId, [.deviceCommand teamId deviceId "stopLog"])
    else
      (setSession st deviceId
        { s with sockets := s.sockets.filter (fun sk => sk ≠ socket) }, [])

/-- The per-session cache update performed by `forwardLog` (devices.js
lines 328-331): push the event, then shift the oldest entry out when the
length exceeds 10. -/
def cacheStep (c : List LogMsg) (l : LogMsg) : List LogMsg :=
  if (c ++ [l]).length > 10 then (c ++ [l]).tail else c ++ [l]

/-- `DeviceCommsHandler.forwardLog` (devices.js lines 325-347): with an
active session, append the event to the cache, evict the oldest entry
past 10, and broadcast the line to every viewer; without a session, tell
the device (when it exists) to stop sending logs. -/
def forwardLog (cfg : LogConfig) (st : LogState) (log : LogMsg) :
    LogState × List LogAction :=
  match lookupKey st.sessions log.id with
  | some s =>
    (setSession st log.id { s with cache := cacheStep s.cache log },
     s.sockets.map (fun sk => .send sk log.logs))
  | none =>
    (st,
     match cfg.deviceTeamById log.id with
     | some teamHashid => [.deviceCommand teamHashid log.id "stopLog"]
     | none => [])

/-- Steps of the log relay: viewer attach, inbound log event, viewer
disconnect. -/
inductive LogStep (cfg : LogConfig) : LogState → LogState → Prop where
  | stream {st : LogState} (teamId deviceId : String) (socket : Nat) :
      LogStep cfg st (streamLogs st teamId deviceId socket).1
  | log {st : LogState} (l : LogMsg) :
      LogStep cfg st (forwardLog cfg st l).1
  | close {st : LogState} (teamId deviceId : String) (socket : Nat) :
      LogStep cfg st (socketClose st teamId deviceId socket).1

/-- Log relay states reachable from an empty session map. -/
inductive LogReachable (cfg : LogConfig) : LogState → Prop where
  | init : LogReachable cfg ⟨[]⟩
  | step {st st' : LogState} : LogReachable cfg st → LogStep cfg st st' → LogReachable cfg st'

/-! ### forge/comms/aclManager.js -/

/-- Prefix test (the anchored prefix regexps and startsWith uses),
computed on the character lists so that proofs can evaluate it. -/
def strStartsWith (s p : String) : Bool :=
  p.toList.isPrefixOf s.toList

/-- Auxiliary accumulator walk for splitting at a separator character. -/
def splitCharAux (sep : Char) : List Char → List Char → List String
  | [], acc => [String.mk acc.reverse]
  | c :: rest, acc =>
    if c = sep then String.mk acc.reverse :: splitCharAux sep rest []
    else splitCharAux sep rest (c :: acc)

/-- `String.prototype.split` with a one-character separator: every
segment is kept, including empty ones, and the empty string yields one
empty segment. -/
def splitOnChar (s : String) (sep : Char) : List String :=
  splitCharAux sep s.toList []

/-- One segment of a topic pattern: a literal, a non-capturing one-segment
wildcard, or a capturing one-segment wildcard.  The source patterns are
anchored alternations of literal segments, non-capturing wildcards
written as one-or-more non-slash characters, and the same wrapped in a
capture group. -/
inductive SegPat where
  | lit (s : String)
  | wild
  | capture
deriving DecidableEq

/-- Whether a topic segment (which contains no slash) matches a pattern
segment. -/
def segMatch : SegPat → String → Bool
  | .lit s, seg => seg == s
  | .wild, seg => seg != ""
  | .capture, seg => seg != ""

/-- Match the split topic against the pattern segments, collecting the
capture groups in order. -/
def matchSegs : List SegPat → List String → Option (List String)
  | [], [] => some []
  | p :: ps, s :: ss =>
    if segMatch p s then
      match matchSegs ps ss with
      | some cs => some (match p with | .capture => s :: cs | _ => cs)
      | none => none
    else none
  | _, _ => none

/-- An entry of an ACL list: the topic pattern, the optional name of a
verification predicate, and the shared-subscription eligibility flag
(absent, hence false, on every built-in rule). -/
structure AclRule where
  pattern : List SegPat
  verify : Option String := none
  shared : Bool := false
deriving DecidableEq

/-- `aclList[i].topic.exec(topic)`: the regex match object, which is the
whole match followed by the capture groups. -/
def ruleExec (r : AclRule) (topic : String) : Option (List String) :=
  match matchSegs r.pattern (splitOnChar topic '/') with
  | some cs => some (topic :: cs)
  | none => none

/-- The database collaborators used by the verification predicates. -/
structure AclDb where
  getDeviceProjectId : Option String → Option String
  getProjectTeamId : Option String → Option Int
  encodeHashid : Int → String

/-- Truthiness of a nullable string collaborator result. -/
def jsTruthyStr : Option String → Bool
  | none => false
  | some s => s != ""

/-- `checkTeamAndObjectIds` (aclManager.js lines 12-16). -/
def checkTeamAndObjectIds (_db : AclDb) (requestParts ids : List String) : Bool :=
  requestParts.get? 1 == ids.get? 1 && requestParts.get? 2 == ids.get? 2

/-- `checkTeamId` (aclManager.js lines 17-21). -/
def checkTeamId (_db : AclDb) (requestParts ids : List String) : Bool :=
  requestParts.get? 1 == ids.get? 1

/-- `checkDeviceIsAssigned` (aclManager.js lines 22-32). -/
def checkDeviceIsAssigned (db : AclDb) (requestParts ids : List String) : Bool :=
  if requestParts.get? 1 != ids.get? 1 then false
  else jsTruthyStr (db.getDeviceProjectId (ids.get? 2))

/-- `checkDeviceAssignedToProject` (aclManager.js lines 33-44). -/
def checkDeviceAssignedToProject (db : AclDb) (requestParts ids : List String) : Bool :=
  if requestParts.get? 1 != ids.get? 1 then false
  else
    match db.getDeviceProjectId (ids.get? 2) with
    | none => false
    | some p => p != "" && requestParts.get? 2 == some p

/-- `checkDeviceCanAccessProject` (aclManager.js lines 45-66). -/
def checkDeviceCanAccessProject (db : AclDb) (requestParts ids : List String) : Bool :=
  if requestParts.get? 1 != ids.get? 1 then false
  else
    match db.getDeviceProjectId (ids.get? 2) with
    | none => false
    | some p =>
      if p == "" then false
      else if requestParts.get? 2 == some p then true
      else
        match db.getProjectTeamId (requestParts.get? 2) with
        | none => false
        | some tid => tid != 0 && requestParts.get? 1 == some (db.encodeHashid tid)

/-- The `verifyFunctions` table: name to predicate, none for a name
without an entry. -/
def verifyFunctions (db : AclDb) : String → Option (List String → List String → Bool)
  | "checkTeamAndObjectIds" => some (checkTeamAndObjectIds db)
  | "checkTeamId" => some (checkTeamId db)
  | "checkDeviceIsAssigned" => some (checkDeviceIsAssigned db)
  | "checkDeviceAssignedToProject" => some (checkDeviceAssignedToProject db)
  | "checkDeviceCanAccessProject" => some (checkDeviceCanAccessProject db)
  | _ => none

/-- The three client classes recognised by `verify`. -/
inductive IdClass where
  | platform
  | project
  | device
deriving DecidableEq

/-- Direction of an ACL list: accessLevel 2 is publish, everything else
(subscribe and write) uses the subscribe list. -/
inductive AclType where
  | sub
  | pub
deriving DecidableEq

/-- The two rule lists of one identity class. -/
structure AclSet where
  sub : List AclRule
  pub : List AclRule
deriving DecidableEq

/-- The process-wide mutable `ACLS` registry. -/
structure AclState where
  platform : AclSet
  project : AclSet
  device : AclSet
deriving DecidableEq

/-- The built-in `ACLS` rule sets (aclManager.js lines 71-128). -/
def defaultACLS : AclState :=
  { platform :=
      { sub :=
          [ { pattern := [.lit "ff", .lit "v1", .wild, .lit "l", .wild, .lit "status"] },
            { pattern := [.lit "ff", .lit "v1", .wild, .lit "d", .wild, .lit "status"] },
            { pattern := [.lit "ff", .lit "v1", .wild, .lit "d", .wild, .lit "logs"] },
            { pattern := [.lit "ff", .lit "v1", .wild, .lit "d", .wild, .lit "response"] } ],
        pub :=
          [ { pattern := [.lit "ff", .lit "v1", .wild, .lit "l", .wild, .lit "command"] },
            { pattern := [.lit "ff", .lit "v1", .wild, .lit "d", .wild, .lit "command"] },
            { pattern := [.lit "ff", .lit "v1", .wild, .lit "p", .wild, .lit "command"] } ] },
    project :=
      { sub :=
          [ { pattern := [.lit "ff", .lit "v1", .capture, .lit "l", .capture, .lit "command"],
              verify := some "checkTeamAndObjectIds" } ],
        pub :=
          [ { pattern := [.lit "ff", .lit "v1", .capture, .lit "l", .capture, .lit "status"],
              verify := some "checkTeamAndObjectIds" } ] },
    device :=
      { sub :=
          [ { pattern := [.lit "ff", .lit "v1", .capture, .lit "d", .capture, .lit "command"],
              verify := some "checkTeamAndObjectIds" },
            { pattern := [.lit "ff", .lit "v1", .capture, .lit "p", .capture, .lit "command"],
              verify := some "checkDeviceAssignedToProject" } ],
        pub :=
          [ { pattern := [.lit "ff", .lit "v1", .capture, .lit "d", .capture, .lit "status"],
              verify := some "checkTeamAndObjectIds" },
            { pattern := [.lit "ff", .lit "v1", .capture, .lit "d", .capture, .lit "logs"],
              verify := some "checkTeamAndObjectIds" },
            { pattern := [.lit "ff", .lit "v1", .capture, .lit "d", .capture, .lit "response"],
              verify := some "checkTeamAndObjectIds" } ] } }

/-- `addACL` (aclManager.js lines 186-188): push a rule onto one of the
registry lists. -/
def addACL (acls : AclState) (cls : IdClass) (t : AclType) (r : AclRule) : AclState :=
  match cls, t with
  | .platform, .sub => { acls with platform := { acls.platform with sub := acls.platform.sub ++ [r] } }
  | .platform, .pub => { acls with platform := { acls.platform with pub := acls.platform.pub ++ [r] } }
  | .project, .sub => { acls with project := { acls.project with sub := acls.project.sub ++ [r] } }
  | .project, .pub => { acls with project := { acls.project with pub := acls.project.pub ++ [r] } }
  | .device, .sub => { acls with device := { acls.device with sub := acls.device.sub ++ [r] } }
  | .device, .pub => { acls with device := { acls.device with pub := acls.device.pub ++ [r] } }

/-- Select the rule list for an identity class and direction. -/
def aclListFor (acls : AclState) : IdClass → AclType → List AclRule
  | .platform, .sub => acls.platform.sub
  | .platform, .pub => acls.platform.pub
  | .project, .sub => acls.project.sub
  | .project, .pub => acls.project.pub
  | .device, .sub => acls.device.sub
  | .device, .pub => acls.device.pub

/-- Classification of the username (aclManager.js lines 143-151): the
exact literal forge_platform, or the project:/device: prefixes; anything
else is denied outright. -/
def classify (username : String) : Option IdClass :=
  if username == "forge_platform" then some .platform
  else if strStartsWith username "project:" then some .project
  else if strStartsWith username "device:" then some .device
  else none

/-- The SHARED_SUB regex (aclManager.js line 69): an anchored match of a
share envelope whose group name is one or more non-slash characters and
whose inner topic is any run of non-newline characters. -/
def sharedSubExec (topic : String) : Option (String × String) :=
  if strStartsWith topic "$share/" then
    match ((topic.toList.drop 7).takeWhile (fun c => c ≠ '/'),
           (topic.toList.drop 7).dropWhile (fun c => c ≠ '/')) with
    | (group, _ :: inner) =>
      if group.length > 0 && !(inner.contains '\n') then
        some (String.mk group, String.mk inner)
      else none
    | (_, []) => none
  else none

/-- The shared-subscription handling at the top of the rule scan
(aclManager.js lines 156-168): on the subscribe side, a topic in the
share envelope is unwrapped, and a group name different from the third
colon-delimited username segment denies immediately (none). -/
def sharedCheck (t : AclType) (usernameParts : List String) (topic : String) :
    Option (Bool × String) :=
  match t with
  | .pub => some (false, topic)
  | .sub =>
    match sharedSubExec topic with
    | none => some (false, topic)
    | some (group, inner) =>
      if usernameParts.get? 2 == some group then some (true, inner) else none

/-- The rule scan (aclManager.js lines 169-182): first structural match
wins; a shared subscription hitting a rule without the shared flag stops
the scan with a denial; a matching rule with a verification predicate
found in the table yields the predicate verdict, any other match grants
access; no match leaves the verdict at false. -/
def scanRules (db : AclDb) (isSharedSub : Bool) (usernameParts : List String)
    (topic : String) : List AclRule → Bool
  | [] => false
  | r :: rest =>
    match ruleExec r topic with
    | some m =>
      if isSharedSub && !r.shared then false
      else
        match r.verify with
        | some name =>
          match verifyFunctions db name with
          | some f => f m usernameParts
          | none => true
        | none => true
    | none => scanRules db isSharedSub usernameParts topic rest

/-- `verify` (aclManager.js lines 131-185): classify the username (an
unknown class denies), pick the rule list for the direction (accessLevel
2 is publish, subscribe and write share the subscribe list; an empty
list denies), run the shared-subscription check, then scan the rules. -/
def verify (db : AclDb) (acls : AclState) (username topic : String)
    (accessLevel : Int) : Bool :=
  match classify username with
  | none => false
  | some cls =>
    if (aclListFor acls cls (if accessLevel = 2 then .pub else .sub)).length > 0 then
      match sharedCheck (if accessLevel = 2 then .pub else .sub)
          (splitOnChar username ':') topic with
      | none => false
      | some (isSharedSub, topic') =>
        scanRules db isSharedSub (splitOnChar username ':') topic'
          (aclListFor acls cls (if accessLevel = 2 then .pub else .sub))
    else false

/-! ### Concrete fixtures used to instantiate the theorems -/

/-- A well-formed device reply envelope, as parsed. -/
def exMsg : Json :=
  .obj [("command", .str "upload"), ("correlationData", .str "c1"),
        ("payload", .obj [("ok", .bool true)])]

/-- A parser that accepts exactly one raw string, rejecting the rest. -/
def exParse : String → Except String Json :=
  fun s => if s = "good" then .ok exMsg else .error "SyntaxError"

/-- Comms collaborators where every device id resolves. -/
def exCfg : CommsConfig := { parseJson := exParse, deviceById := fun _ => some () }

/-- Handler state after one `sendCommandAwaitReply` for command upload
with correlation token c1. -/
def exSt0 : HandlerState :=
  (sendCommandAwaitReply ⟨[], []⟩ "t1" "d1" "upload" .null none 100 "c1").1

/-- The monitor registered in `exSt0`. -/
def exMonitor : ResponseMonitor :=
  { command := "upload", deviceId := "d1", teamId := "t1", correlationData := "c1",
    resolved := false, rejected := false, timerActive := true,
    timerDuration := 5000, createdAt := 100, expiresAt := 5100, inMap := true }

/-- A response event carrying the well-formed reply. -/
def exResp : ResponseMsg := { id := some "d1", message := some "good" }

/-- A reply envelope whose payload field is present but falsy. -/
def exMsgFalsy : Json :=
  .obj [("command", .str "upload"), ("correlationData", .str "c1"),
        ("payload", .bool false)]

/-- Comms collaborators whose parser always yields the falsy-payload
envelope. -/
def exCfgFalsy : CommsConfig :=
  { parseJson := fun _ => .ok exMsgFalsy, deviceById := fun _ => some () }

/-- Database collaborators for the ACL examples: the example device is
assigned to project p1, which belongs to team 7 with hashid t1. -/
def exAclDb : AclDb :=
  { getDeviceProjectId := fun _ => some "p1"
    getProjectTeamId := fun _ => some 7
    encodeHashid := fun n => "t" ++ toString n }

/-- The first built-in device subscribe rule (device command topic). -/
def exDevSubRule1 : AclRule :=
  { pattern := [.lit "ff", .lit "v1", .capture, .lit "d", .capture, .lit "command"],
    verify := some "checkTeamAndObjectIds" }

/-- The second built-in device subscribe rule (project broadcast topic). -/
def exDevSubRule2 : AclRule :=
  { pattern := [.lit "ff", .lit "v1", .capture, .lit "p", .capture, .lit "command"],
    verify := some "checkDeviceAssignedToProject" }

/-- Log relay collaborators with no known devices (unused by the claim
scenarios, which keep a session active). -/
def exLogCfg : LogConfig := { deviceTeamById := fun _ => none }

/-- Eleven sequential log events for one device. -/
def exLogs11 : List LogMsg :=
  (List.range 11).map (fun i => { id := "dev", logs := toString i })

/-- One log event for the same device. -/
def exLog0 : LogMsg := { id := "dev", logs := "0" }

/-- A concrete device record for the status reconciler examples. -/
def exDevice : Device :=
  { hashid := "dhash", teamHashid := "thash", projectId := some "proj",
    targetSnapshotHashid := some "snap", settingsHash := some "shash",
    mode := "autonomous", state := .json .null, agentVersion := .json .null,
    activeSnapshotId := .json (.num 3), lastSeenAt := .json .null,
    currentSnapshot := none }

/-- Status reconciler collaborators: one device, a hashid decoder that
recognises nothing, no surviving snapshots, comms and licence active. -/
def exStatusCfg : StatusConfig :=
  { parseJson := fun t =>
      if t = "unknownstate" then .ok (.obj [("state", .str "unknown")])
      else .error "SyntaxError"
    deviceById := fun _ => some exDevice
    decodeHashid := fun _ => []
    snapshotById := fun _ => none
    commsActive := true
    licenseActive := true }

/-- A status payload carrying a stale snapshot reference. -/
def exState9 : Json := .obj [("snapshot", .str "zzz"), ("state", .str "running")]

/-- The log relay cache bound invariant. -/
def LogInv (st : LogState) : Prop :=
  ∀ p ∈ st.sessions, (p.2 : LogSession).cache.length ≤ 10

/-- The state invariant of the command machinery: keys agree with the
stored correlation tokens and are distinct, the resolved and rejected
flags are mutually exclusive, a terminal monitor is out of the mapping
with a cancelled timer, and the recorded promise outcomes are in
bijection with the terminal monitors. -/
def Inv (st : HandlerState) : Prop :=
  (∀ p ∈ st.monitors, (p.2 : ResponseMonitor).correlationData = p.1)
  ∧ (st.monitors.map Prod.fst).Nodup
  ∧ (∀ p ∈ st.monitors, ¬((p.2 : ResponseMonitor).resolved = true ∧ (p.2 : ResponseMonitor).rejected = true))
  ∧ (∀ p ∈ st.monitors, ((p.2 : ResponseMonitor).resolved = true ∨ (p.2 : ResponseMonitor).rejected = true) →
      (p.2 : ResponseMonitor).inMap = false ∧ (p.2 : ResponseMonitor).timerActive = false)
  ∧ (∀ p ∈ st.monitors, countKey st.outcomes p.1 =
      if (p.2 : ResponseMonitor).resolved = true ∨ (p.2 : ResponseMonitor).rejected = true then 1 else 0)
  ∧ (∀ c, lookupKey st.monitors c = none → countKey st.outcomes c = 0)

/-! ### Lemmas about the association-list primitives -/

theorem updateKey_cons {α : Type} (k : String) (v : α) (tl : List (String × α))
    (c : String) (f : α → α) :
    updateKey ((k, v) :: tl) c f =
      (if k = c then (k, f v) else (k, v)) :: updateKey tl c f := by
  by_cases h : k = c <;> simp [updateKey, h]

theorem lookupKey_cons {α : Type} (k : String) (v : α) (tl : List (String × α))
    (c : String) :
    lookupKey ((k, v) :: tl) c = if k = c then some v else lookupKey tl c := rfl

theorem lookupKey_updateKey {α : Type} (l : List (String × α)) (c c' : String)
    (f : α → α) :
    lookupKey (updateKey l c f) c' =
      if c' = c then (lookupKey l c').map f else lookupKey l c' := by
  induction l with
  | nil => simp [updateKey, lookupKey]
  | cons hd tl ih =>
    obtain ⟨k, v⟩ := hd
    rw [updateKey_cons]
    by_cases hkc : k = c
    · rw [if_pos hkc]
      subst hkc
      by_cases hkc' : k = c'
      · subst hkc'
        simp [lookupKey_cons]
      · simp [lookupKey_cons, hkc', ih]
    · rw [if_neg hkc]
      by_cases hkc' : k = c'
      · subst hkc'
        simp [lookupKey_cons, hkc]
      · simp [lookupKey_cons, hkc', ih]

theorem lookupKey_eq_none_iff {α : Type} (l : List (String × α)) (c : String) :
    lookupKey l c = none ↔ c ∉ l.map Prod.fst := by
  induction l with
  | nil => simp [lookupKey]
  | cons hd tl ih =>
    obtain ⟨k, v⟩ := hd
    by_cases h : k = c
    · subst h
      simp [lookupKey_cons]
    · simp [lookupKey_cons, h, ih, Ne.symm h]

theorem lookupKey_append {α : Type} (l₁ l₂ : List (String × α)) (c : String) :
    lookupKey (l₁ ++ l₂) c =
      match lookupKey l₁ c with
      | some v => some v
      | none => lookupKey l₂ c := by
  induction l₁ with
  | nil => simp [lookupKey]
  | cons hd tl ih =>
    obtain ⟨k, v⟩ := hd
    by_cases h : k = c
    · subst h
      simp [lookupKey_cons]
    · simp [lookupKey_cons, h, ih]

theorem map_fst_updateKey {α : Type} (l : List (String × α)) (c : String)
    (f : α → α) : (updateKey l c f).map Prod.fst = l.map Prod.fst := by
  induction l with
  | nil => rfl
  | cons hd tl ih =>
    obtain ⟨k, v⟩ := hd
    by_cases h : k = c <;> simp [updateKey_cons, h, ih]

theorem mem_updateKey {α : Type} {l : List (String × α)} {c : String}
    {f : α → α} {p : String × α} (hp : p ∈ updateKey l c f) :
    ∃ q ∈ l, p = if q.1 = c then (q.1, f q.2) else q := by
  unfold updateKey at hp
  obtain ⟨q, hq, rfl⟩ := List.mem_map.mp hp
  exact ⟨q, hq, rfl⟩

theorem mem_updateKey_of_mem {α : Type} {l : List (String × α)} (c : String)
    (f : α → α) {q : String × α} (hq : q ∈ l) :
    (if q.1 = c then (q.1, f q.2) else q) ∈ updateKey l c f := by
  unfold updateKey
  exact List.mem_map.mpr ⟨q, hq, rfl⟩

theorem countKey_append_single (l : List (String × Outcome)) (x : String × Outcome)
    (c : String) :
    countKey (l ++ [x]) c = countKey l c + if x.1 = c then 1 else 0 := by
  by_cases h : x.1 = c <;>
    simp [countKey, List.countP_append, List.countP_cons, h]

theorem mem_of_lookupKey {α : Type} {l : List (String × α)} {c : String} {v : α}
    (h : lookupKey l c = some v) : (c, v) ∈ l := by
  induction l with
  | nil => simp [lookupKey] at h
  | cons hd tl ih =>
    obtain ⟨k, w⟩ := hd
    rw [lookupKey_cons] at h
    by_cases hk : k = c
    · rw [if_pos hk] at h
      injection h with h2
      subst hk
      subst h2
      exact List.mem_cons_self _ _
    · rw [if_neg hk] at h
      exact List.mem_cons_of_mem _ (ih h)

theorem lookupKey_eq_some_of_mem_nodup {α : Type} {l : List (String × α)}
    {c : String} {v : α} (hmem : (c, v) ∈ l)
    (hnd : (l.map Prod.fst).Nodup) : lookupKey l c = some v := by
  induction l with
  | nil => simp at hmem
  | cons hd tl ih =>
    obtain ⟨k, w⟩ := hd
    simp only [List.map_cons, List.nodup_cons] at hnd
    rcases List.mem_cons.mp hmem with heq | hm
    · injection heq with h1 h2
      subst h1; subst h2
      simp [lookupKey_cons]
    · have hk : k ≠ c := by
        intro hkc
        subst hkc
        exact hnd.1 (List.mem_map.mpr ⟨(k, v), hm, rfl⟩)
      rw [lookupKey_cons, if_neg hk]
      exact ih hm hnd.2

theorem inFlightLookup_eq_some {st : HandlerState} {c : String}
    {m : ResponseMonitor} (h : st.inFlightLookup c = some m) :
    lookupKey st.monitors c = some m ∧ m.inMap = true := by
  rcases hl : lookupKey st.monitors c with _ | m'
  · simp [HandlerState.inFlightLookup, hl] at h
  · simp only [HandlerState.inFlightLookup, hl] at h
    by_cases hin : m'.inMap = true
    · rw [if_pos hin] at h
      injection h with h2
      subst h2
      exact ⟨rfl, hin⟩
    · rw [if_neg hin] at h
      exact absurd h (by simp)

/-- C1 helper: the handler run on a state whose in-flight mapping misses
the correlation token of a structurally valid message leaves the state
unchanged. -/
theorem handleCommandResponse_notFound (cfg : CommsConfig) (st : HandlerState)
    (r : ResponseMsg) (did msgStr c cmd : String) (msg payload : Json)
    (hid : r.id = some did) (hdid : did ≠ "")
    (hmsg : r.message = some msgStr)
    (hparse : cfg.parseJson msgStr = .ok msg)
    (hmcmd : msg.lookup "command" = some (.str cmd)) (hcmdne : cmd ≠ "")
    (hmcorr : msg.lookup "correlationData" = some (.str c)) (hc : c ≠ "")
    (hpay : msg.lookup "payload" = some payload) (hptruthy : payload.truthy = true)
    (hmiss : st.inFlightLookup c = none) :
    handleCommandResponse cfg st r = .ok st := by
  have hjt : jsTruthy (msg.lookup "payload") = true := by
    rw [hpay]; simpa [jsTruthy] using hptruthy
  have hjc : jsTruthy (msg.lookup "command") = true := by
    rw [hmcmd]; simp [jsTruthy, Json.truthy, bne_iff_ne, hcmdne]
  have hjr : jsTruthy (msg.lookup "correlationData") = true := by
    rw [hmcorr]; simp [jsTruthy, Json.truthy, bne_iff_ne, hc]
  rcases hdev : cfg.deviceById did with _ | u <;>
    simp [handleCommandResponse, hid, hmsg, hdid, hparse, hjc, hjr, hjt,
      bne_iff_ne, hdev, hmcorr, Json.toKeyString, hmiss]

/-- C1: a device response matching the in-flight monitor's correlation
token and command name resolves the promise with the message payload,
removes the monitor from the in-flight mapping, and a subsequent
duplicate of the same response finds no monitor and leaves the state
untouched. -/
theorem sendCommandAwaitReply_roundtrip (cfg : CommsConfig) (st : HandlerState)
    (c cmd did msgStr : String) (m : ResponseMonitor) (r : ResponseMsg)
    (msg payload : Json)
    (hin : st.inFlightLookup c = some m)
    (hcmd : m.command = cmd) (hcmdne : cmd ≠ "")
    (hid : r.id = some did) (hdid : did ≠ "")
    (hmsg : r.message = some msgStr)
    (hparse : cfg.parseJson msgStr = .ok msg)
    (hdev : cfg.deviceById did = some ())
    (hmcmd : msg.lookup "command" = some (.str cmd))
    (hmcorr : msg.lookup "correlationData" = some (.str c)) (hc : c ≠ "")
    (hpay : msg.lookup "payload" = some payload)
    (hptruthy : payload.truthy = true) :
    ∃ st', handleCommandResponse cfg st r = .ok st'
      ∧ st'.outcomes = st.outcomes ++ [(c, .resolvedWith payload)]
      ∧ st'.inFlightLookup c = none
      ∧ handleCommandResponse cfg st' r = .ok st' := by
  obtain ⟨hlk, hinmap⟩ := inFlightLookup_eq_some hin
  have hnone : (deleteKey (settleResolve st c payload)
      (r.correlationData.getD "undefined")).inFlightLookup c = none := by
    simp only [HandlerState.inFlightLookup, deleteKey, settleResolve,
      lookupKey_updateKey, if_pos rfl, hlk]
    by_cases hkk : c = r.correlationData.getD "undefined" <;>
      simp [hkk]
  refine ⟨deleteKey (settleResolve st c payload) (r.correlationData.getD "undefined"),
    ?_, ?_, hnone, ?_⟩
  · have hjt : jsTruthy (some payload) = true := by
      simpa [jsTruthy] using hptruthy
    have hjc : jsTruthy (some (Json.str cmd)) = true := by
      simp [jsTruthy, Json.truthy, bne_iff_ne, hcmdne]
    have hjr : jsTruthy (some (Json.str c)) = true := by
      simp [jsTruthy, Json.truthy, bne_iff_ne, hc]
    simp [handleCommandResponse, hid, hmsg, hdid, hparse, hjc, hjr, hjt,
      bne_iff_ne, hdev, hmcorr, hpay, Json.toKeyString, hin, jsStrictEqStr,
      hmcmd, hcmd]
  · simp [deleteKey, settleResolve]
  · exact handleCommandResponse_notFound cfg _ r did msgStr c cmd msg payload
      hid hdid hmsg hparse hmcmd hcmdne hmcorr hc hpay hptruthy hnone

/-- C1 witness: the round trip at a concrete send and response. -/
theorem sendCommandAwaitReply_roundtrip_witness :
    ∃ st', handleCommandResponse exCfg exSt0 exResp = .ok st'
      ∧ st'.outcomes = exSt0.outcomes ++ [("c1", .resolvedWith (.obj [("ok", .bool true)]))]
      ∧ st'.inFlightLookup "c1" = none
      ∧ handleCommandResponse exCfg st' exResp = .ok st' := by
  have h := sendCommandAwaitReply_roundtrip exCfg exSt0 "c1" "upload" "d1" "good"
    exMonitor exResp exMsg (.obj [("ok", .bool true)])
    (by rfl) (by rfl) (by decide) (by rfl) (by decide) (by rfl) (by rfl) (by rfl)
    (by rfl) (by rfl) (by decide) (by rfl) (by rfl)
  simpa [exSt0, sendCommandAwaitReply] using h

/-- C2: when the per-monitor timer fires before any terminal transition,
the promise rejects with the timeout error and the monitor leaves the
in-flight mapping; a matching response handled afterwards finds no
monitor and leaves the state untouched.  The timer duration is the
sanitised options.timeout, whose fallback is DEFAULT_TIMEOUT = 5000. -/
theorem sendCommandAwaitReply_timeout (cfg : CommsConfig) (st : HandlerState)
    (c cmd did msgStr : String) (m : ResponseMonitor) (r : ResponseMsg)
    (msg payload : Json)
    (hlk : lookupKey st.monitors c = some m)
    (hres : m.resolved = false) (hrej : m.rejected = false)
    (_hact : m.timerActive = true)
    (_hcmd : m.command = cmd) (hcmdne : cmd ≠ "")
    (hid : r.id = some did) (hdid : did ≠ "")
    (hmsg : r.message = some msgStr)
    (hparse : cfg.parseJson msgStr = .ok msg)
    (hmcmd : msg.lookup "command" = some (.str cmd))
    (hmcorr : msg.lookup "correlationData" = some (.str c)) (hc : c ≠ "")
    (hpay : msg.lookup "payload" = some payload)
    (hptruthy : payload.truthy = true) :
    (timerFire st c).outcomes = st.outcomes ++ [(c, .rejectedWith "Command timed out")]
      ∧ (timerFire st c).inFlightLookup c = none
      ∧ handleCommandResponse cfg (timerFire st c) r = .ok (timerFire st c)
      ∧ sanitizeTimeout none = DEFAULT_TIMEOUT ∧ DEFAULT_TIMEOUT = 5000 := by
  have hfire : timerFire st c = settleReject st c "Command timed out" := by
    simp [timerFire, hlk, hres, hrej]
  have hnone : (timerFire st c).inFlightLookup c = none := by
    rw [hfire]
    simp [HandlerState.inFlightLookup, settleReject, lookupKey_updateKey, hlk]
  refine ⟨?_, hnone, ?_, rfl, rfl⟩
  · rw [hfire]
    simp [settleReject]
  · exact handleCommandResponse_notFound cfg _ r did msgStr c cmd msg payload
      hid hdid hmsg hparse hmcmd hcmdne hmcorr hc hpay hptruthy hnone

/-- C2 witness: the timeout path at a concrete in-flight command. -/
theorem sendCommandAwaitReply_timeout_witness :
    (timerFire exSt0 "c1").outcomes = exSt0.outcomes ++ [("c1", .rejectedWith "Command timed out")]
      ∧ (timerFire exSt0 "c1").inFlightLookup "c1" = none
      ∧ handleCommandResponse exCfg (timerFire exSt0 "c1") exResp = .ok (timerFire exSt0 "c1")
      ∧ sanitizeTimeout none = DEFAULT_TIMEOUT ∧ DEFAULT_TIMEOUT = 5000 :=
  sendCommandAwaitReply_timeout exCfg exSt0 "c1" "upload" "d1" "good"
    exMonitor exResp exMsg (.obj [("ok", .bool true)])
    (by rfl) (by rfl) (by rfl) (by rfl) (by rfl) (by decide) (by rfl) (by decide)
    (by rfl) (by rfl) (by rfl) (by rfl) (by decide) (by rfl) (by rfl)

/-- C3: a device-response event whose message payload does not parse is
not dropped silently: the uncaught JSON.parse exception escapes
handleCommandResponse.  Evaluated at a concrete malformed event. -/
theorem handleCommandResponse_parse_failure_raises :
    handleCommandResponse exCfg exSt0 { id := some "d1", message := some "bad" }
      = .error "SyntaxError" := by
  simp [handleCommandResponse, exCfg, exParse]

/-- C10: a response whose parsed message matches the in-flight monitor
but whose payload field is present and falsy fails the truthiness check
on the required fields and is dropped with the state unchanged, so the
monitor can only be settled by its timeout. -/
theorem handleCommandResponse_falsy_payload (cfg : CommsConfig) (st : HandlerState)
    (c cmd did msgStr : String) (m : ResponseMonitor) (r : ResponseMsg)
    (msg payload : Json)
    (_hin : st.inFlightLookup c = some m)
    (_hcmd : m.command = cmd) (_hcmdne : cmd ≠ "")
    (hid : r.id = some did) (hdid : did ≠ "")
    (hmsg : r.message = some msgStr)
    (hparse : cfg.parseJson msgStr = .ok msg)
    (hmcmd : msg.lookup "command" = some (.str cmd))
    (hmcorr : msg.lookup "correlationData" = some (.str c)) (_hc : c ≠ "")
    (hpay : msg.lookup "payload" = some payload)
    (hfalsy : payload.truthy = false) :
    handleCommandResponse cfg st r = .ok st := by
  have hjt : jsTruthy (some payload) = false := by
    simpa [jsTruthy] using hfalsy
  simp [handleCommandResponse, hid, hmsg, hdid, hparse, hmcmd, hmcorr, hpay,
    bne_iff_ne, hjt]

/-- C10 witness: a falsy (boolean false) payload at a concrete in-flight
command is dropped. -/
theorem handleCommandResponse_falsy_payload_witness :
    handleCommandResponse exCfgFalsy exSt0 exResp = .ok exSt0 :=
  handleCommandResponse_falsy_payload exCfgFalsy exSt0 "c1" "upload" "d1" "good"
    exMonitor exResp exMsgFalsy (.bool false)
    (by rfl) (by rfl) (by decide) (by rfl) (by decide) (by rfl) (by rfl) (by rfl)
    (by rfl) (by decide) (by rfl) (by rfl)

/-- Every normal return of `handleCommandResponse` either leaves the state
unchanged or performs exactly one monitor resolution on a monitor found
in the in-flight mapping. -/
theorem handleCommandResponse_ok_cases (cfg : CommsConfig) (st : HandlerState)
    (r : ResponseMsg) (st' : HandlerState)
    (h : handleCommandResponse cfg st r = .ok st') :
    st' = st ∨ ∃ c m payload, st.inFlightLookup c = some m
      ∧ st' = deleteKey (settleResolve st c payload)
          (r.correlationData.getD "undefined") := by
  unfold handleCommandResponse at h
  split at h
  case h_2 =>
    injection h with h2
    exact Or.inl h2.symm
  case h_1 deviceId messageStr _ _ =>
    split at h
    case isFalse =>
      injection h with h2
      exact Or.inl h2.symm
    case isTrue =>
      split at h
      case h_1 => exact absurd h (by simp)
      case h_2 message hparse =>
        split at h
        case isFalse =>
          injection h with h2
          exact Or.inl h2.symm
        case isTrue =>
          split at h
          case h_1 =>
            injection h with h2
            exact Or.inl h2.symm
          case h_2 =>
            split at h
            case h_2 =>
              injection h with h2
              exact Or.inl h2.symm
            case h_1 m hm =>
              split at h
              case isFalse =>
                injection h with h2
                exact Or.inl h2.symm
              case isTrue =>
                injection h with h2
                exact Or.inr ⟨_, m, _, hm, h2.symm⟩

/-- deleteKey only clears the mapping flag and preserves the state
invariant. -/
theorem inv_deleteKey (st : HandlerState) (k : String) (h : Inv st) :
    Inv (deleteKey st k) := by
  obtain ⟨h1, h2, h3, h4, h5, h6⟩ := h
  refine ⟨?_, ?_, ?_, ?_, ?_, ?_⟩
  · intro p hp
    simp only [deleteKey] at hp
    obtain ⟨q, hq, rfl⟩ := mem_updateKey hp
    by_cases hqk : q.1 = k
    · rw [if_pos hqk]
      simpa [hqk] using h1 q hq
    · rw [if_neg hqk]
      exact h1 q hq
  · simpa [deleteKey, map_fst_updateKey] using h2
  · intro p hp
    simp only [deleteKey] at hp
    obtain ⟨q, hq, rfl⟩ := mem_updateKey hp
    by_cases hqk : q.1 = k
    · rw [if_pos hqk]
      simpa using h3 q hq
    · rw [if_neg hqk]
      exact h3 q hq
  · intro p hp
    simp only [deleteKey] at hp
    obtain ⟨q, hq, rfl⟩ := mem_updateKey hp
    by_cases hqk : q.1 = k
    · rw [if_pos hqk]
      intro hs
      simp only at hs
      simp at hs ⊢
      exact (h4 q hq hs).2
    · rw [if_neg hqk]
      exact h4 q hq
  · intro p hp
    simp only [deleteKey] at hp
    obtain ⟨q, hq, rfl⟩ := mem_updateKey hp
    by_cases hqk : q.1 = k
    · rw [if_pos hqk]
      simpa using h5 q hq
    · rw [if_neg hqk]
      exact h5 q hq
  · intro c hc
    simp only [deleteKey, lookupKey_updateKey] at hc
    by_cases hck : c = k
    · rw [if_pos hck] at hc
      exact h6 c (Option.map_eq_none'.mp hc)
    · rw [if_neg hck] at hc
      exact h6 c hc

/-- A terminal transition (resolve or reject closure) on an unsettled
monitor that is present under its key preserves the state invariant. -/
theorem inv_settle_aux (st : HandlerState) (c : String) (m : ResponseMonitor)
    (f : ResponseMonitor → ResponseMonitor) (o : Outcome)
    (h : Inv st) (hlk : lookupKey st.monitors c = some m)
    (hres : m.resolved = false) (hrej : m.rejected = false)
    (hfc : (f m).correlationData = m.correlationData)
    (hfin : (f m).inMap = false) (hft : (f m).timerActive = false)
    (hf3 : ¬((f m).resolved = true ∧ (f m).rejected = true))
    (hfs : (f m).resolved = true ∨ (f m).rejected = true) :
    Inv { monitors := updateKey st.monitors c f,
          outcomes := st.outcomes ++ [(c, o)] } := by
  obtain ⟨h1, h2, h3, h4, h5, h6⟩ := h
  have hq2 : ∀ q ∈ st.monitors, q.1 = c → q.2 = m := by
    intro q hq hqc
    obtain ⟨k, v⟩ := q
    subst hqc
    have := lookupKey_eq_some_of_mem_nodup hq h2
    rw [this] at hlk
    injection hlk
  refine ⟨?_, ?_, ?_, ?_, ?_, ?_⟩
  · intro p hp
    obtain ⟨q, hq, rfl⟩ := mem_updateKey hp
    by_cases hqk : q.1 = c
    · rw [if_pos hqk]
      have hqm := hq2 q hq hqk
      have hcorr := h1 q hq
      rw [hqm] at hcorr
      show (f q.2).correlationData = q.1
      rw [hqm, hfc]
      exact hcorr
    · rw [if_neg hqk]
      exact h1 q hq
  · simpa [map_fst_updateKey] using h2
  · intro p hp
    obtain ⟨q, hq, rfl⟩ := mem_updateKey hp
    by_cases hqk : q.1 = c
    · rw [if_pos hqk]
      simpa [hq2 q hq hqk] using hf3
    · rw [if_neg hqk]
      exact h3 q hq
  · intro p hp
    obtain ⟨q, hq, rfl⟩ := mem_updateKey hp
    by_cases hqk : q.1 = c
    · rw [if_pos hqk]
      intro _
      simp only [hq2 q hq hqk]
      exact ⟨hfin, hft⟩
    · rw [if_neg hqk]
      exact h4 q hq
  · intro p hp
    obtain ⟨q, hq, rfl⟩ := mem_updateKey hp
    by_cases hqk : q.1 = c
    · rw [if_pos hqk]
      have hqm := hq2 q hq hqk
      simp only [countKey_append_single, hqm, hqk, if_pos rfl]
      have hold := h5 q hq
      rw [hqm, hres, hrej] at hold
      simp only [hqk] at hold
      simp [hold, hfs]
    · rw [if_neg hqk]
      simp only [countKey_append_single]
      rw [if_neg (fun hcc => hqk hcc.symm)]
      simpa using h5 q hq
  · intro c' hc'
    simp only [lookupKey_updateKey] at hc'
    by_cases hcc : c' = c
    · rw [if_pos hcc] at hc'
      rw [hcc, hlk] at hc'
      exact absurd hc' (by simp)
    · rw [if_neg hcc] at hc'
      rw [countKey_append_single]
      rw [if_neg (fun h => hcc h.symm)]
      simpa using h6 c' hc'

/-- A fresh `sendCommandAwaitReply` registration preserves the state
invariant. -/
theorem inv_send (st : HandlerState) (teamId deviceId command : String)
    (payload : Json) (opts : SendOptions) (now : Int) (fresh : String)
    (h : Inv st) (hfresh : lookupKey st.monitors fresh = none) :
    Inv (sendCommandAwaitReply st teamId deviceId command payload opts now fresh).1 := by
  obtain ⟨h1, h2, h3, h4, h5, h6⟩ := h
  have hninkeys : fresh ∉ st.monitors.map Prod.fst :=
    (lookupKey_eq_none_iff _ _).mp hfresh
  simp only [sendCommandAwaitReply, newResponseMonitor]
  refine ⟨?_, ?_, ?_, ?_, ?_, ?_⟩
  · intro p hp
    rcases List.mem_append.mp hp with hold | hnew
    · exact h1 p hold
    · simp at hnew
      simp [hnew]
  · simp only [List.map_append]
    rw [List.nodup_append]
    refine ⟨h2, List.nodup_singleton _, ?_⟩
    intro a ha hb
    simp at hb
    subst hb
    exact hninkeys ha
  · intro p hp
    rcases List.mem_append.mp hp with hold | hnew
    · exact h3 p hold
    · simp at hnew
      simp [hnew]
  · intro p hp
    rcases List.mem_append.mp hp with hold | hnew
    · exact h4 p hold
    · simp at hnew
      simp [hnew]
  · intro p hp
    rcases List.mem_append.mp hp with hold | hnew
    · exact h5 p hold
    · simp at hnew
      simp [hnew, h6 fresh hfresh]
  · intro c hc
    rw [lookupKey_append] at hc
    rcases hl : lookupKey st.monitors c with _ | v
    · exact h6 c hl
    · rw [hl] at hc
      exact absurd hc (by simp)

/-- One event-loop step preserves the state invariant. -/
theorem inv_step (cfg : CommsConfig) {st st' : HandlerState} (h : Inv st)
    (hs : Step cfg st st') : Inv st' := by
  cases hs with
  | send teamId deviceId command payload opts now fresh hfresh =>
    exact inv_send st teamId deviceId command payload opts now fresh h hfresh
  | response r hr =>
    rcases handleCommandResponse_ok_cases cfg st r st' hr with rfl | ⟨c, m, payload, hin, rfl⟩
    · exact h
    · obtain ⟨hlk, hinmap⟩ := inFlightLookup_eq_some hin
      have hmem := mem_of_lookupKey hlk
      have hunsettled : ¬(m.resolved = true ∨ m.rejected = true) := by
        intro hsett
        have := (h.2.2.2.1 (c, m) hmem hsett).1
        rw [this] at hinmap
        exact absurd hinmap (by simp)
      have hres : m.resolved = false := by
        rcases hr2 : m.resolved with _ | _
        · rfl
        · exact absurd (Or.inl hr2) hunsettled
      have hrej : m.rejected = false := by
        rcases hr2 : m.rejected with _ | _
        · rfl
        · exact absurd (Or.inr hr2) hunsettled
      exact inv_deleteKey _ _
        (inv_settle_aux st c m _ _ h hlk hres hrej rfl rfl rfl
          (by simp [hrej]) (by simp))
  | responseRaised r e hr => exact h
  | timer c m hm hactive =>
    have hunsettled : ¬(m.resolved = true ∨ m.rejected = true) := by
      intro hsett
      have hmem := mem_of_lookupKey hm
      have := (h.2.2.2.1 (c, m) hmem hsett).2
      rw [this] at hactive
      exact absurd hactive (by simp)
    have hres : m.resolved = false := by
      rcases hr2 : m.resolved with _ | _
      · rfl
      · exact absurd (Or.inl hr2) hunsettled
    have hrej : m.rejected = false := by
      rcases hr2 : m.rejected with _ | _
      · rfl
      · exact absurd (Or.inr hr2) hunsettled
    have hfire : timerFire st c = settleReject st c "Command timed out" := by
      simp [timerFire, hm, hres, hrej]
    rw [hfire]
    exact inv_settle_aux st c m _ _ h hm hres hrej rfl rfl rfl
      (by simp [hres]) (by simp)

/-- Every reachable state satisfies the invariant. -/
theorem inv_reachable (cfg : CommsConfig) {st : HandlerState}
    (h : Reachable cfg st) : Inv st := by
  induction h with
  | init =>
    refine ⟨?_, ?_, ?_, ?_, ?_, ?_⟩ <;> simp [countKey]
  | step hst hstep ih => exact inv_step cfg ih hstep

/-- A monitor whose inMap flag is already clear is unchanged by the
mapping delete. -/
theorem clearInMap_of_not_inMap {m : ResponseMonitor} (h : m.inMap = false) :
    ({ m with inMap := false } : ResponseMonitor) = m := by
  obtain ⟨a1, a2, a3, a4, a5, a6, a7, a8, a9, a10, a11⟩ := m
  simp only at h
  subst h
  rfl

/-- C4: over any reachable state of the command machinery, a monitor
never has both terminal flags set, its promise settles at most once, and
once a terminal transition has happened no further event-loop step can
alter the monitor or settle its promise again. -/
theorem responseMonitor_mutual_exclusion (cfg : CommsConfig) (st : HandlerState)
    (hreach : Reachable cfg st) (c : String) (m : ResponseMonitor)
    (hm : (c, m) ∈ st.monitors) :
    ¬(m.resolved = true ∧ m.rejected = true)
    ∧ countKey st.outcomes c ≤ 1
    ∧ ((m.resolved = true ∨ m.rejected = true) →
        ∀ st', Step cfg st st' →
          (c, m) ∈ st'.monitors ∧ countKey st'.outcomes c = countKey st.outcomes c) := by
  obtain ⟨h1, h2, h3, h4, h5, h6⟩ := inv_reachable cfg hreach
  refine ⟨h3 (c, m) hm, ?_, ?_⟩
  · rw [h5 (c, m) hm]
    split <;> omega
  · intro hsett st' hstep
    have hlk : lookupKey st.monitors c = some m := lookupKey_eq_some_of_mem_nodup hm h2
    have hin4 := h4 (c, m) hm hsett
    have hi1 : m.inMap = false := hin4.1
    have hi2 : m.timerActive = false := hin4.2
    cases hstep with
    | send teamId deviceId command payload opts now fresh hfresh =>
      constructor
      · simp only [sendCommandAwaitReply]
        exact List.mem_append_left _ hm
      · simp [sendCommandAwaitReply]
    | response r hr =>
      rcases handleCommandResponse_ok_cases cfg st r st' hr with rfl | ⟨c', m', payload, hin, rfl⟩
      · exact ⟨hm, rfl⟩
      · obtain ⟨hlk', hinmap'⟩ := inFlightLookup_eq_some hin
        have hcc : c' ≠ c := by
          intro hcc
          subst hcc
          rw [hlk'] at hlk
          injection hlk with h2'
          rw [h2', hi1] at hinmap'
          exact absurd hinmap' (by simp)
        have hstep1 :
            (c, m) ∈ (settleResolve st c' payload).monitors := by
          have := mem_updateKey_of_mem c'
            (fun x => { x with resolved := true, timerActive := false, inMap := false }) hm
          rwa [if_neg (fun h => hcc h.symm)] at this
        constructor
        · have := mem_updateKey_of_mem (r.correlationData.getD "undefined")
            (fun x => { x with inMap := false }) hstep1
          by_cases hck : c = r.correlationData.getD "undefined"
          · rw [if_pos hck] at this
            simpa [deleteKey, clearInMap_of_not_inMap hi1] using this
          · rw [if_neg hck] at this
            simpa [deleteKey] using this
        · simp only [deleteKey, settleResolve]
          rw [countKey_append_single, if_neg hcc]
          omega
    | responseRaised r e hr => exact ⟨hm, rfl⟩
    | timer c' m' hm' hactive' =>
      have hcc : c' ≠ c := by
        intro hcc
        subst hcc
        rw [hm'] at hlk
        injection hlk with h2'
        rw [h2', hi2] at hactive'
        exact absurd hactive' (by simp)
      simp only [timerFire, hm']
      by_cases hr1 : m'.resolved = true
      · rw [if_pos hr1]
        exact ⟨hm, rfl⟩
      · rw [if_neg hr1]
        by_cases hr2 : m'.rejected = true
        · rw [if_pos hr2]
          exact ⟨hm, rfl⟩
        · rw [if_neg hr2]
          constructor
          · have := mem_updateKey_of_mem c'
              (fun x => { x with rejected := true, timerActive := false, inMap := false }) hm
            rwa [if_neg (fun h => hcc h.symm)] at this
          · simp only [settleReject]
            rw [countKey_append_single, if_neg hcc]
            omega

/-- C4 witness: the mutual-exclusion facts at the concrete reachable
state holding one freshly sent command. -/
theorem responseMonitor_mutual_exclusion_witness :
    ¬(exMonitor.resolved = true ∧ exMonitor.rejected = true)
    ∧ countKey exSt0.outcomes "c1" ≤ 1
    ∧ ((exMonitor.resolved = true ∨ exMonitor.rejected = true) →
        ∀ st', Step exCfg exSt0 st' →
          ("c1", exMonitor) ∈ st'.monitors
            ∧ countKey st'.outcomes "c1" = countKey exSt0.outcomes "c1") :=
  responseMonitor_mutual_exclusion exCfg exSt0
    (Reachable.step Reachable.init
      (Step.send "t1" "d1" "upload" Json.null none 100 "c1" (by rfl)))
    "c1" exMonitor (by decide)

/-- C5: on the subscribe side, a topic in the shared-subscription
envelope whose group name differs from the third colon-delimited
username segment is denied before and regardless of any rule
matching. -/
theorem verify_shared_group_mismatch (db : AclDb) (acls : AclState)
    (username topic group inner : String) (accessLevel : Int) (cls : IdClass)
    (hcls : classify username = some cls)
    (hlvl : accessLevel ≠ 2)
    (hlen : (aclListFor acls cls .sub).length > 0)
    (hshared : sharedSubExec topic = some (group, inner))
    (hmismatch : (splitOnChar username ':').get? 2 ≠ some group) :
    verify db acls username topic accessLevel = false := by
  have hat : (if accessLevel = 2 then AclType.pub else AclType.sub) = .sub :=
    if_neg hlvl
  have hm2 : (splitOnChar username ':')[2]? ≠ some group := by
    simpa [List.get?_eq_getElem?] using hmismatch
  simp only [verify, hcls, hat]
  rw [if_pos hlen]
  simp [sharedCheck, hshared, hm2]

/-- C5 witness: a device identity using a foreign share-group name is
denied on its own command topic. -/
theorem verify_shared_group_mismatch_witness :
    verify exAclDb defaultACLS "device:t1:d1" "$share/grp/ff/v1/t1/d/d1/command" 1
      = false :=
  verify_shared_group_mismatch exAclDb defaultACLS "device:t1:d1"
    "$share/grp/ff/v1/t1/d/d1/command" "grp" "ff/v1/t1/d/d1/command" 1 .device
    (by decide) (by decide) (by decide) (by decide) (by decide)

/-- The rule scan stops at the first rule whose pattern matches. -/
theorem scanRules_first_match (db : AclDb) (isShared : Bool)
    (parts : List String) (topic : String) (pre : List AclRule) (r : AclRule)
    (post : List AclRule) (m : List String)
    (hpre : ∀ r' ∈ pre, ruleExec r' topic = none)
    (hr : ruleExec r topic = some m) :
    scanRules db isShared parts topic (pre ++ r :: post) =
      if isShared && !r.shared then false
      else
        match r.verify with
        | some name =>
          match verifyFunctions db name with
          | some f => f m parts
          | none => true
        | none => true := by
  induction pre with
  | nil =>
    simp only [List.nil_append, scanRules, hr]
  | cons r' pre ih =>
    have h' : ruleExec r' topic = none := hpre r' (List.mem_cons_self _ _)
    simp only [List.cons_append, scanRules, h']
    exact ih (fun q hq => hpre q (List.mem_cons_of_mem _ hq))

/-- The rule scan over a list with no matching pattern denies. -/
theorem scanRules_no_match (db : AclDb) (isShared : Bool)
    (parts : List String) (topic : String) (rules : List AclRule)
    (h : ∀ r ∈ rules, ruleExec r topic = none) :
    scanRules db isShared parts topic rules = false := by
  induction rules with
  | nil => rfl
  | cons r rest ih =>
    have h' : ruleExec r topic = none := h r (List.mem_cons_self _ _)
    simp only [scanRules, h']
    exact ih (fun q hq => h q (List.mem_cons_of_mem _ hq))

/-- C6: once the scan is reached, only the first rule whose pattern
matches the (possibly unwrapped) topic decides the verdict: a shared
subscription on a rule without the shared flag denies, a named
verification predicate found in the table gives the verdict on the
capture groups and username parts, a match without predicate grants,
and a scan with no match denies.  Later rules never matter (the verdict
is independent of post). -/
theorem verify_first_match_wins (db : AclDb) (acls : AclState)
    (username topic : String) (accessLevel : Int) (cls : IdClass)
    (rules : List AclRule) (isShared : Bool) (topicIn : String)
    (hcls : classify username = some cls)
    (hrules : aclListFor acls cls (if accessLevel = 2 then .pub else .sub) = rules)
    (hsc : sharedCheck (if accessLevel = 2 then .pub else .sub)
        (splitOnChar username ':') topic = some (isShared, topicIn)) :
    (∀ pre r post m, rules = pre ++ r :: post →
      (∀ r' ∈ pre, ruleExec r' topicIn = none) →
      ruleExec r topicIn = some m →
      ((isShared = true ∧ r.shared = false) →
          verify db acls username topic accessLevel = false)
      ∧ (¬(isShared = true ∧ r.shared = false) →
          (∀ name f, r.verify = some name → verifyFunctions db name = some f →
            verify db acls username topic accessLevel = f m (splitOnChar username ':'))
          ∧ (r.verify = none → verify db acls username topic accessLevel = true)))
    ∧ ((∀ r ∈ rules, ruleExec r topicIn = none) →
        verify db acls username topic accessLevel = false) := by
  constructor
  · intro pre r post m hsplit hpre hr
    have hlen : 0 < rules.length := by
      rw [hsplit]
      simp
    have hverify : verify db acls username topic accessLevel =
        scanRules db isShared (splitOnChar username ':') topicIn rules := by
      simp only [verify, hcls, hrules, hsc]
      rw [if_pos hlen]
    rw [hverify, hsplit,
      scanRules_first_match db isShared (splitOnChar username ':') topicIn pre r post m hpre hr]
    constructor
    · intro hden
      rw [hden.1, hden.2]
      simp
    · intro hallow
      have hcond : (isShared && !r.shared) = false := by
        rcases hs : isShared with _ | _
        · simp
        · rcases hs2 : r.shared with _ | _
          · exact absurd ⟨hs, hs2⟩ hallow
          · simp [hs2]
      rw [hcond]
      constructor
      · intro name f hname hf
        simp [hname, hf]
      · intro hname
        simp [hname]
  · intro hnom
    by_cases hlen : 0 < rules.length
    · have hverify : verify db acls username topic accessLevel =
          scanRules db isShared (splitOnChar username ':') topicIn rules := by
        simp only [verify, hcls, hrules, hsc]
        rw [if_pos hlen]
      rw [hverify]
      exact scanRules_no_match db isShared (splitOnChar username ':') topicIn rules hnom
    · simp only [verify, hcls, hrules, hsc]
      rw [if_neg hlen]

/-- C6 witness: on a concrete device subscribe request the verdict is
exactly the first matching rule's predicate applied to its capture
groups and the username parts. -/
theorem verify_first_match_wins_witness :
    verify exAclDb defaultACLS "device:t1:d1" "ff/v1/t1/d/d1/command" 1
      = checkTeamAndObjectIds exAclDb ["ff/v1/t1/d/d1/command", "t1", "d1"]
          (splitOnChar "device:t1:d1" ':') :=
  (((verify_first_match_wins exAclDb defaultACLS "device:t1:d1"
      "ff/v1/t1/d/d1/command" 1 .device [exDevSubRule1, exDevSubRule2] false
      "ff/v1/t1/d/d1/command" (by decide) (by decide) (by decide)).1
    [] exDevSubRule1 [exDevSubRule2] ["ff/v1/t1/d/d1/command", "t1", "d1"]
    (by decide) (by simp) (by decide)).2 (by simp)).1
    "checkTeamAndObjectIds" (checkTeamAndObjectIds exAclDb) (by rfl) (by rfl)

theorem cacheStep_length_le {c : List LogMsg} (l : LogMsg)
    (h : c.length ≤ 10) : (cacheStep c l).length ≤ 10 := by
  have hlen : (c ++ [l]).length = c.length + 1 := by simp
  unfold cacheStep
  by_cases hgt : (c ++ [l]).length > 10
  · rw [if_pos hgt, List.length_tail, hlen]
    omega
  · rw [if_neg hgt, hlen]
    omega

/-- Each log relay operation preserves the cache bound. -/
theorem loginv_step (cfg : LogConfig) {st st' : LogState} (h : LogInv st)
    (hs : LogStep cfg st st') : LogInv st' := by
  cases hs with
  | stream teamId deviceId socket =>
    intro p hp
    rcases hl : lookupKey st.sessions deviceId with _ | s
    · simp only [streamLogs, hl] at hp
      rcases List.mem_append.mp hp with hold | hnew
      · exact h p hold
      · simp at hnew
        simp [hnew]
    · simp only [streamLogs, hl, setSession] at hp
      obtain ⟨q, hq, rfl⟩ := mem_updateKey hp
      by_cases hqk : q.1 = deviceId
      · rw [if_pos hqk]
        exact h (deviceId, s) (mem_of_lookupKey hl)
      · rw [if_neg hqk]
        exact h q hq
  | log l =>
    intro p hp
    rcases hl : lookupKey st.sessions l.id with _ | s
    · simp only [forwardLog, hl] at hp
      exact h p hp
    · simp only [forwardLog, hl, setSession] at hp
      obtain ⟨q, hq, rfl⟩ := mem_updateKey hp
      by_cases hqk : q.1 = l.id
      · rw [if_pos hqk]
        exact cacheStep_length_le l (h (l.id, s) (mem_of_lookupKey hl))
      · rw [if_neg hqk]
        exact h q hq
  | close teamId deviceId socket =>
    intro p hp
    rcases hl : lookupKey st.sessions deviceId with _ | s
    · simp only [socketClose, hl] at hp
      exact h p hp
    · simp only [socketClose, hl] at hp
      by_cases hcond : (s.sockets.filter (fun sk => sk ≠ socket)).length = 0
      · rw [if_pos hcond] at hp
        simp only [removeSession] at hp
        exact h p (List.mem_of_mem_filter hp)
      · rw [if_neg hcond] at hp
        simp only [setSession] at hp
        obtain ⟨q, hq, rfl⟩ := mem_updateKey hp
        by_cases hqk : q.1 = deviceId
        · rw [if_pos hqk]
          exact h (deviceId, s) (mem_of_lookupKey hl)
        · rw [if_neg hqk]
          exact h q hq

/-- Every reachable log relay state satisfies the cache bound. -/
theorem loginv_reachable (cfg : LogConfig) {st : LogState}
    (h : LogReachable cfg st) : LogInv st := by
  induction h with
  | init => intro p hp; simp at hp
  | step hst hstep ih => exact loginv_step cfg ih hstep

/-- Folding the cache update keeps exactly the last ten entries of the
whole event sequence. -/
theorem foldl_cacheStep (logs : List LogMsg) (c : List LogMsg)
    (h : c.length ≤ 10) :
    logs.foldl cacheStep c = (c ++ logs).drop ((c ++ logs).length - 10) := by
  induction logs generalizing c with
  | nil =>
    have h0 : c.length - 10 = 0 := by omega
    simp [h0]
  | cons l ls ih =>
    rw [List.foldl_cons]
    by_cases hgt : (c ++ [l]).length > 10
    · have h10 : c.length = 10 := by
        simp at hgt
        omega
      obtain ⟨hd, tl, rfl⟩ : ∃ hd tl, c = hd :: tl := by
        cases c with
        | nil => simp at h10
        | cons a b => exact ⟨a, b, rfl⟩
      have hstep : cacheStep (hd :: tl) l = tl ++ [l] := by
        unfold cacheStep
        rw [if_pos hgt]
        simp
      rw [hstep, ih (tl ++ [l]) (by simp at h10 ⊢; omega)]
      have hlen1 : ((tl ++ [l]) ++ ls).length - 10 = ls.length := by
        simp at h10 ⊢
        omega
      have hlen2 : ((hd :: tl) ++ l :: ls).length - 10 = ls.length + 1 := by
        simp at h10 ⊢
        omega
      rw [hlen1, hlen2]
      have hsplit : (hd :: tl) ++ l :: ls = hd :: ((tl ++ [l]) ++ ls) := by
        simp
      rw [hsplit, List.drop_succ_cons]
    · have hstep : cacheStep c l = c ++ [l] := by
        unfold cacheStep
        rw [if_neg hgt]
      rw [hstep, ih (c ++ [l]) (by simp at hgt ⊢; omega)]
      have hsplit : (c ++ [l]) ++ ls = c ++ l :: ls := by simp
      rw [hsplit]

/-- Folding forwardLog over events addressed to a device with an active
session updates exactly that session cache by the cache step fold. -/
theorem forwardLog_fold_cache (cfg : LogConfig) (logs : List LogMsg)
    (d : String) (hall : ∀ l ∈ logs, l.id = d) (st : LogState)
    (s : LogSession) (hs : lookupKey st.sessions d = some s) :
    lookupKey ((logs.foldl (fun t l => (forwardLog cfg t l).1) st).sessions) d
      = some { s with cache := logs.foldl cacheStep s.cache } := by
  induction logs generalizing st s with
  | nil =>
    simpa using hs
  | cons l ls ih =>
    have hid : l.id = d := hall l (List.mem_cons_self _ _)
    rw [List.foldl_cons, List.foldl_cons]
    have hfwd : (forwardLog cfg st l).1
        = setSession st d { s with cache := cacheStep s.cache l } := by
      simp [forwardLog, hid, hs]
    rw [hfwd]
    have hs' : lookupKey (setSession st d { s with cache := cacheStep s.cache l }).sessions d
        = some { s with cache := cacheStep s.cache l } := by
      simp [setSession, lookupKey_updateKey, hs]
    exact ih (fun q hq => hall q (List.mem_cons_of_mem _ hq)) _ _ hs'

/-- C7: the log cache never exceeds ten entries after a forwardLog call
on any reachable relay state, and for a device whose session was just
created, eleven sequential events leave the cache holding exactly events
one through ten in arrival order, so the oldest cached entry is the
event pushed second. -/
theorem forwardLog_cache_bound_eviction (cfg : LogConfig) :
    (∀ st, LogReachable cfg st → ∀ l : LogMsg,
      ∀ p ∈ (forwardLog cfg st l).1.sessions, (p.2 : LogSession).cache.length ≤ 10)
    ∧ (∀ (st : LogState) (teamId d : String) (socket : Nat) (logs : List LogMsg),
        lookupKey st.sessions d = none →
        (∀ l ∈ logs, l.id = d) → logs.length = 11 →
        ∃ s', lookupKey ((logs.foldl (fun t l => (forwardLog cfg t l).1)
              (streamLogs st teamId d socket).1).sessions) d = some s'
          ∧ s'.cache = logs.tail
          ∧ s'.cache.head? = logs.get? 1) := by
  constructor
  · intro st hst l p hp
    exact loginv_reachable cfg (LogReachable.step hst (LogStep.log l)) p hp
  · intro st teamId d socket logs hnone hall hlen
    have hs0 : lookupKey ((streamLogs st teamId d socket).1).sessions d
        = some { cache := [], sockets := [socket] } := by
      simp only [streamLogs, hnone]
      rw [lookupKey_append, hnone]
      simp [lookupKey_cons]
    refine ⟨{ cache := logs.foldl cacheStep [], sockets := [socket] }, ?_, ?_, ?_⟩
    · exact forwardLog_fold_cache cfg logs d hall _ _ hs0
    · show logs.foldl cacheStep [] = logs.tail
      rw [foldl_cacheStep logs [] (by simp)]
      simp [hlen]
    · show (logs.foldl cacheStep []).head? = logs.get? 1
      rw [foldl_cacheStep logs [] (by simp)]
      simp only [List.nil_append, hlen]
      cases logs with
      | nil => simp at hlen
      | cons a rest =>
        simp [List.get?_cons_succ]
        cases rest with
        | nil => simp at hlen
        | cons b rest2 => simp

/-- C7 witness: eleven concrete events against a freshly created
session. -/
theorem forwardLog_cache_bound_eviction_witness :
    (∀ p ∈ (forwardLog exLogCfg ⟨[]⟩ exLog0).1.sessions,
      (p.2 : LogSession).cache.length ≤ 10)
    ∧ ∃ s', lookupKey ((exLogs11.foldl (fun t l => (forwardLog exLogCfg t l).1)
          (streamLogs ⟨[]⟩ "t1" "dev" 0).1).sessions) "dev" = some s'
        ∧ s'.cache = exLogs11.tail
        ∧ s'.cache.head? = exLogs11.get? 1 :=
  ⟨(forwardLog_cache_bound_eviction exLogCfg).1 ⟨[]⟩ LogReachable.init exLog0,
   (forwardLog_cache_bound_eviction exLogCfg).2 ⟨[]⟩ "t1" "dev" 0 exLogs11
     (by rfl) (by decide) (by rfl)⟩

/-- updateState never touches the association fields read by the drift
checks and by sendDeviceUpdateCommand. -/
theorem updateState_preserves_assoc (cfg : StatusConfig) (device : Device)
    (state : Json) :
    (updateState cfg device state).projectId = device.projectId
    ∧ (updateState cfg device state).targetSnapshotHashid = device.targetSnapshotHashid
    ∧ (updateState cfg device state).settingsHash = device.settingsHash
    ∧ (updateState cfg device state).mode = device.mode
    ∧ (updateState cfg device state).hashid = device.hashid
    ∧ (updateState cfg device state).teamHashid = device.teamHashid := by
  unfold updateState
  by_cases h1 : jsTruthy (state.lookup "state") <;>
    by_cases h2 : jsTruthy (state.lookup "agentVersion") <;>
      by_cases h3 : jsTruthy (state.lookup "snapshot") <;>
        rcases hby : cfg.snapshotById ((state.lookup "snapshot").getD .null) with _ | u <;>
          simp [h1, h2, h3, hby] <;>
            split <;> simp

/-- C9: a status payload whose snapshot reference does not decode to a
still-existing snapshot leaves the device active snapshot unchanged,
while state, agentVersion and the last-seen stamp are applied as
usual. -/
theorem updateState_bad_snapshot_noop (cfg : StatusConfig) (device : Device)
    (state : Json)
    (hsnap : jsTruthy (state.lookup "snapshot") = true)
    (hbad : cfg.decodeHashid ((state.lookup "snapshot").getD .null) = []
      ∨ cfg.snapshotById ((state.lookup "snapshot").getD .null) = none) :
    (updateState cfg device state).activeSnapshotId = device.activeSnapshotId
    ∧ (updateState cfg device state).state =
        (if jsTruthy (state.lookup "state") then
          ColVal.json ((state.lookup "state").getD .null) else device.state)
    ∧ (updateState cfg device state).agentVersion =
        (if jsTruthy (state.lookup "agentVersion") then
          ColVal.json ((state.lookup "agentVersion").getD .null) else device.agentVersion)
    ∧ (updateState cfg device state).lastSeenAt =
        ColVal.sqlLiteral "CURRENT_TIMESTAMP" := by
  by_cases h1 : jsTruthy (state.lookup "state") <;>
    by_cases h2 : jsTruthy (state.lookup "agentVersion") <;>
      rcases hbad with hbad | hbad <;>
        simp [updateState, h1, h2, hsnap, hbad]

/-- C9 witness: a stale snapshot reference at a concrete device and
payload. -/
theorem updateState_bad_snapshot_noop_witness :
    (updateState exStatusCfg exDevice exState9).activeSnapshotId = exDevice.activeSnapshotId
    ∧ (updateState exStatusCfg exDevice exState9).state =
        (if jsTruthy (exState9.lookup "state") then
          ColVal.json ((exState9.lookup "state").getD .null) else exDevice.state)
    ∧ (updateState exStatusCfg exDevice exState9).agentVersion =
        (if jsTruthy (exState9.lookup "agentVersion") then
          ColVal.json ((exState9.lookup "agentVersion").getD .null) else exDevice.agentVersion)
    ∧ (updateState exStatusCfg exDevice exState9).lastSeenAt =
        ColVal.sqlLiteral "CURRENT_TIMESTAMP" :=
  updateState_bad_snapshot_noop exStatusCfg exDevice exState9 (by rfl) (Or.inl (by rfl))

/-- C8: a status event for a known device whose payload has state equal
to the sentinel unknown dispatches exactly one update command carrying
the authoritative project, snapshot, settings, mode and licensed
values. -/
theorem handleStatus_unknown_sends_one_update (cfg : StatusConfig)
    (ev : StatusMsg) (device : Device) (did s : String) (payload : Json)
    (hid : ev.id = some did) (hdid : did ≠ "")
    (hstat : ev.status = some s) (hs : s ≠ "")
    (hdev : cfg.deviceById did = some device)
    (hparse : cfg.parseJson s = .ok payload)
    (hunknown : payload.lookup "state" = some (.str "unknown"))
    (hcomms : cfg.commsActive = true) :
    (handleStatus cfg ev).2 =
      [{ teamId := device.teamHashid, deviceId := device.hashid,
         command := "update",
         project := jsOrNull device.projectId,
         snapshot := jsOrNull device.targetSnapshotHashid,
         settings := jsOrNull device.settingsHash,
         mode := device.mode, licensed := cfg.licenseActive }] := by
  obtain ⟨ha1, ha2, ha3, ha4, ha5, ha6⟩ := updateState_preserves_assoc cfg device payload
  have hfrom : jsStrictEqStr "unknown" (payload.lookup "state") = true := by
    simp [jsStrictEqStr, hunknown]
  simp [handleStatus, hid, hstat, bne_iff_ne, hdid, hs, hdev, hparse, hfrom,
    sendDeviceUpdateCommand, hcomms, ha1, ha2, ha3, ha4, ha5, ha6]

/-- C8 witness: the concrete unknown-state status event dispatches the
one update command. -/
theorem handleStatus_unknown_sends_one_update_witness :
    (handleStatus exStatusCfg ⟨some "dhash", some "unknownstate"⟩).2 =
      [{ teamId := exDevice.teamHashid, deviceId := exDevice.hashid,
         command := "update",
         project := jsOrNull exDevice.projectId,
         snapshot := jsOrNull exDevice.targetSnapshotHashid,
         settings := jsOrNull exDevice.settingsHash,
         mode := exDevice.mode, licensed := exStatusCfg.licenseActive }] :=
  handleStatus_unknown_sends_one_update exStatusCfg
    ⟨some "dhash", some "unknownstate"⟩ exDevice "dhash" "unknownstate"
    (.obj [("state", .str "unknown")])
    (by rfl) (by decide) (by rfl) (by decide) (by rfl) (by rfl) (by rfl) (by rfl)

end Flowforge
